import Mathlib

/-!
The poco-todo server: the in-memory todo store, the HTTP router and the WebSocket registry.

A shallow embedding of `src/simple/TodoServer.h` and `src/simple/TodoServer.cpp`.

* C++ `int` is a 32-bit two's-complement integer.  Values are carried as `Int`
  and the one arithmetic operation of the program, `nextId_++`, is reduced with
  `wrapInt`.  The C++ standard leaves the overflowing increment undefined; the
  embedding takes the two's-complement result that the usual compilers produce.
* `std::unordered_map<int, Todo>` is a `Finmap`: a finite map with unique keys,
  no order, and extensional equality.
* A C++ function that may throw returns `Except Exception α`; a member function
  that works on an object returns the new object next to its result, because a
  thrown exception does not undo what was done before it.
-/

set_option autoImplicit false

deriving instance DecidableEq for Except

/-! ## Exceptions -/

/-- The exception classes that the program throws or catches. -/
inductive Exception where
  /-- `std::runtime_error`, thrown by `TodoStorage`. -/
  | runtime_error (what : String)
  /-- `std::invalid_argument`, thrown by `std::stoi` when no digits are found. -/
  | invalid_argument (what : String)
  /-- `std::out_of_range`, thrown by `std::stoi` when the number does not fit an `int`. -/
  | out_of_range (what : String)
  /-- `Poco::Net::WebSocketException`. -/
  | webSocketException (what : String)
  /-- Any other `Poco::Exception` (JSON parsing, value conversion, network). -/
  | pocoException (what : String)
deriving DecidableEq, Repr

/-- The text of `std::exception::what()`. -/
def Exception.what : Exception → String
  | .runtime_error w => w
  | .invalid_argument w => w
  | .out_of_range w => w
  | .webSocketException w => w
  | .pocoException w => w

/-- Whether `catch (const Poco::Exception&)` catches the exception. -/
def Exception.isPoco : Exception → Bool
  | .webSocketException _ => true
  | .pocoException _ => true
  | _ => false

/-- Whether `catch (const Poco::Net::WebSocketException&)` catches the exception. -/
def Exception.isWebSocket : Exception → Bool
  | .webSocketException _ => true
  | _ => false

/-! ## Machine integers -/

/-- The largest `int`. -/
def INT_MAX : Int := 2147483647

/-- The smallest `int`. -/
def INT_MIN : Int := -2147483648

/-- Reduction of an integer to the 32-bit two's-complement range. -/
def wrapInt (x : Int) : Int := (x + 2147483648) % 4294967296 - 2147483648

/-! ## `struct Todo` and `class TodoStorage` -/

/-- The record `struct Todo` of `TodoServer.h`. -/
structure Todo where
  id : Int
  title : String
  description : String
  completed : Bool
deriving DecidableEq, Repr

/-- The type `std::unordered_map<int, Todo>`. -/
abbrev TodoMap := Finmap (fun _ : Int => Todo)

/-- The value-initialised `Todo` that `operator[]` inserts for a missing key. -/
def Todo.default : Todo := ⟨0, "", "", false⟩

/-- The call `m[id]` read as an rvalue: the mapped value, and the map, which gains a
value-initialised entry when the key was missing. -/
def TodoMap.subscript (m : TodoMap) (id : Int) : Todo × TodoMap :=
  match m.lookup id with
  | some t => (t, m)
  | none => (Todo.default, m.insert id Todo.default)

/-- The data members of `class TodoStorage` (the mutex aside). -/
structure TodoStorage where
  todos_ : TodoMap
  nextId_ : Int
deriving DecidableEq

namespace TodoStorage

/-- The constructor `TodoStorage::TodoStorage`: an empty map and `nextId_(1)`. -/
def new : TodoStorage := ⟨∅, 1⟩

/-- The method `TodoStorage::createTodo`:
`int id = nextId_++; todos_[id] = {id, title, description, false}; return id;`.
The assignment through `operator[]` adds the key or replaces its record. -/
def createTodo (s : TodoStorage) (title description : String) : Int × TodoStorage :=
  let id := s.nextId_
  (id, { todos_ := s.todos_.insert id ⟨id, title, description, false⟩,
         nextId_ := wrapInt (s.nextId_ + 1) })

/-- The method `TodoStorage::getTodo`: throws when `find` fails, otherwise returns `todos_[id]`. -/
def getTodo (s : TodoStorage) (id : Int) : Except Exception Todo × TodoStorage :=
  if s.todos_.lookup id = none then
    (.error (.runtime_error "Todo not found"), s)
  else
    let r := TodoMap.subscript s.todos_ id
    (.ok r.1, { s with todos_ := r.2 })

/-- The method `TodoStorage::getAllTodos`: a copy of the map. -/
def getAllTodos (s : TodoStorage) : TodoMap × TodoStorage := (s.todos_, s)

/-- The method `TodoStorage::modifyTodo`: throws when `find` fails, otherwise
`todos_[id] = {id, title, description, completed}`. -/
def modifyTodo (s : TodoStorage) (id : Int) (title description : String) (completed : Bool) :
    Except Exception Unit × TodoStorage :=
  if s.todos_.lookup id = none then
    (.error (.runtime_error "Todo not found"), s)
  else
    (.ok (), { s with todos_ := s.todos_.insert id ⟨id, title, description, completed⟩ })

/-- The method `TodoStorage::deleteTodo`: `todos_.erase(id)`. -/
def deleteTodo (s : TodoStorage) (id : Int) : TodoStorage :=
  { s with todos_ := s.todos_.erase id }

end TodoStorage

/-! ## Sequences of store operations -/

/-- One call of a public method of `TodoStorage`, with its arguments. -/
inductive Op where
  | createTodo (title description : String)
  | getTodo (id : Int)
  | getAllTodos
  | modifyTodo (id : Int) (title description : String) (completed : Bool)
  | deleteTodo (id : Int)
deriving DecidableEq, Repr

/-- What a call gave back to its caller. -/
inductive Result where
  | id (n : Int)
  | todo (t : Todo)
  | todos (m : TodoMap)
  | done
  | thrown (e : Exception)
deriving DecidableEq

/-- Runs one call on a store: what the caller gets, and the store afterwards. -/
def step (s : TodoStorage) : Op → Result × TodoStorage
  | .createTodo t d => (.id (s.createTodo t d).1, (s.createTodo t d).2)
  | .getTodo id =>
    match s.getTodo id with
    | (.ok t, s') => (.todo t, s')
    | (.error e, s') => (.thrown e, s')
  | .getAllTodos => (.todos s.getAllTodos.1, s.getAllTodos.2)
  | .modifyTodo id t d c =>
    match s.modifyTodo id t d c with
    | (.ok _, s') => (.done, s')
    | (.error e, s') => (.thrown e, s')
  | .deleteTodo id => (.done, s.deleteTodo id)

/-- The store after a sequence of calls. -/
def exec (s : TodoStorage) (ops : List Op) : TodoStorage :=
  ops.foldl (fun s op => (step s op).2) s

/-- One executed call: the store before it, the call, its result, the store after it. -/
structure Call where
  before : TodoStorage
  op : Op
  result : Result
  after : TodoStorage

/-- The executed calls of a sequence, in call order. -/
def calls : TodoStorage → List Op → List Call
  | _, [] => []
  | s, op :: ops => ⟨s, op, (step s op).1, (step s op).2⟩ :: calls (step s op).2 ops

/-- The id a call returned, when the call is a `createTodo`. -/
def Call.createdId (c : Call) : Option Int :=
  match c.op, c.result with
  | .createTodo _ _, .id n => some n
  | _, _ => none

/-- The ids returned by the `createTodo` calls of a sequence, in call order. -/
def createdIds (s : TodoStorage) (ops : List Op) : List Int :=
  (calls s ops).filterMap Call.createdId

/-- Whether an operation is a `createTodo` call. -/
def Op.isCreate : Op → Bool
  | .createTodo _ _ => true
  | _ => false

/-- Whether an operation is a `deleteTodo` call. -/
def Op.isDelete : Op → Bool
  | .deleteTodo _ => true
  | _ => false

/-- The number N of `createTodo` calls in a sequence. -/
def numCreates (ops : List Op) : Nat := ops.countP Op.isCreate

/-- The number M of `deleteTodo` calls in a sequence. -/
def numDeletes (ops : List Op) : Nat := ops.countP Op.isDelete

/-- Whether a call is a `deleteTodo` whose id was a key of the store when it was called. -/
def Call.deleteHit (c : Call) : Bool :=
  match c.op with
  | .deleteTodo id => decide (id ∈ c.before.todos_)
  | _ => false

/-- The number of `deleteTodo` calls of a sequence that removed a record. -/
def numDeleteHits (s : TodoStorage) (ops : List Op) : Nat :=
  (calls s ops).countP Call.deleteHit

/-- The record a call wrote, by the words of the specification: a `createTodo` that
returned `id` wrote `{id, title, description, false}`, a `modifyTodo` that did not
fail wrote `{id, title, description, completed}`, and nothing else writes. -/
def Call.written (c : Call) : Option (Int × Todo) :=
  match c.op, c.result with
  | .createTodo t d, .id n => some (n, ⟨n, t, d, false⟩)
  | .modifyTodo id t d b, .done => some (id, ⟨id, t, d, b⟩)
  | _, _ => none

/-- The records written by a sequence of calls, in call order. -/
def writes (s : TodoStorage) (ops : List Op) : List (Int × Todo) :=
  (calls s ops).filterMap Call.written

/-- The last record written for the id `k`, if any. -/
def lastWrite (k : Int) (ws : List (Int × Todo)) : Option Todo :=
  ws.foldl (fun acc w => if w.1 = k then some w.2 else acc) none

/-- A list of integers is strictly increasing. -/
def StrictlyIncreasing (l : List Int) : Prop := l.Pairwise (fun a b => a < b)

instance (l : List Int) : Decidable (StrictlyIncreasing l) := by
  unfold StrictlyIncreasing; infer_instance

/-! ## `std::stoi` and `std::to_string` -/

/-- The characters `isspace` accepts in the "C" locale. -/
def isSpace (c : Char) : Bool :=
  c.toNat = 32 || (9 ≤ c.toNat && c.toNat ≤ 13)

/-- The value of a decimal digit character. -/
def digitValue (c : Char) : Int := (c.toNat : Int) - 48

/-- The number written by a list of decimal digits. -/
def decimalValue (ds : List Char) : Int :=
  ds.foldl (fun n c => 10 * n + digitValue c) 0

/-- The part of a string left after leading white space and one optional sign:
whether the sign was a minus, and the rest. -/
def stripSign (s : List Char) : Bool × List Char :=
  match s.dropWhile isSpace with
  | c :: r => if c = '-' then (true, r) else if c = '+' then (false, r) else (false, c :: r)
  | [] => (false, [])

/-- The longest run of decimal digits after the white space and the sign. -/
def leadingDigits (s : List Char) : List Char :=
  (stripSign s).2.takeWhile Char.isDigit

/-- The number written by the sign and the leading digits. -/
def leadingNumber (s : List Char) : Int :=
  if (stripSign s).1 then - decimalValue (leadingDigits s) else decimalValue (leadingDigits s)

/-- The function `std::stoi(str)` with base 10: skips leading white space, reads an
optional sign and the longest run of decimal digits, and ignores whatever follows.
Throws `std::invalid_argument` when there is no digit and `std::out_of_range` when
the number is not an `int`; the text of `what()` is the one of libstdc++. The path is
ASCII up to the position 7, so that bytes and characters agree there. -/
def stoi (s : List Char) : Except Exception Int :=
  if leadingDigits s = [] then .error (.invalid_argument "stoi")
  else if leadingNumber s < INT_MIN ∨ INT_MAX < leadingNumber s then
    .error (.out_of_range "stoi")
  else .ok (leadingNumber s)

/-- The function `std::to_string(int)`: the decimal writing of the number. -/
def to_string (n : Int) : String := toString n

/-! ## JSON values of the responses -/

/-- A JSON value that is a number, a string or a boolean. -/
inductive JsonPrim where
  | int (n : Int)
  | string (s : String)
  | bool (b : Bool)
deriving DecidableEq, Repr

/-- A JSON object whose fields are numbers, strings and booleans. -/
abbrev JsonFlat := List (String × JsonPrim)

/-- A value stored in the response object. The elements of an array come from the
iteration of an `unordered_map`, whose order is unspecified, so an array is a multiset. -/
inductive JsonValue where
  | prim (p : JsonPrim)
  | array (items : Multiset JsonFlat)
deriving DecidableEq

/-- The response object `Poco::JSON::Object`. -/
abbrev JsonObject := List (String × JsonValue)

/-- The call `Object::set(key, value)`: replaces the value of a key, or adds the key. -/
def JsonObject.set (o : JsonObject) (key : String) (value : JsonValue) : JsonObject :=
  if o.any (fun f => f.1 == key) then
    o.map (fun f => if f.1 == key then (key, value) else f)
  else o ++ [(key, value)]

namespace JsonUtil

/-- The function `JsonUtil::serializeTodo`. -/
def serializeTodo (todo : Todo) : JsonFlat :=
  [("id", .int todo.id), ("title", .string todo.title),
   ("description", .string todo.description), ("completed", .bool todo.completed)]

/-- The function `JsonUtil::serializeTodos`. -/
def serializeTodos (todos : TodoMap) : Multiset JsonFlat :=
  todos.entries.map (fun e => serializeTodo e.2)

end JsonUtil

/-- The functions of the Poco JSON library that the program calls on a request body. -/
structure PocoJson (Stream Obj : Type) where
  /-- The expression `parser.parse(stream).extract<Poco::JSON::Object::Ptr>()`. -/
  parse : Stream → Except Exception Obj
  /-- The call `json->getValue<std::string>(key)`. -/
  getString : Obj → String → Except Exception String
  /-- The call `json->getValue<bool>(key)`. -/
  getBool : Obj → String → Except Exception Bool

namespace JsonUtil

variable {Stream Obj : Type}

/-- The function `JsonUtil::deserializeCreateTodo`. -/
def deserializeCreateTodo (J : PocoJson Stream Obj) (json : Obj) :
    Except Exception (String × String) :=
  match J.getString json "title" with
  | .error e => .error e
  | .ok title =>
    match J.getString json "description" with
    | .error e => .error e
    | .ok description => .ok (title, description)

/-- The function `JsonUtil::deserializeModifyTodo`. -/
def deserializeModifyTodo (J : PocoJson Stream Obj) (json : Obj) :
    Except Exception (String × String × Bool) :=
  match J.getString json "title" with
  | .error e => .error e
  | .ok title =>
    match J.getString json "description" with
    | .error e => .error e
    | .ok description =>
      match J.getBool json "completed" with
      | .error e => .error e
      | .ok completed => .ok (title, description, completed)

end JsonUtil

/-! ## `class WebSocketHandler` -/

/-- The data member `clients_` of `class WebSocketHandler`: a `std::set` of pointers.
A pointer is its address, and the set is the list of its elements by increasing
address, which is the order in which a `std::set` is iterated. -/
structure WebSocketHandler where
  clients_ : List Nat
deriving DecidableEq, Repr

/-- The call `std::set::insert`: puts an address at its place, unless it is there. -/
def setInsert (c : Nat) : List Nat → List Nat
  | [] => [c]
  | x :: xs =>
    if c < x then c :: x :: xs
    else if c = x then x :: xs
    else x :: setInsert c xs

/-- The call `std::set::erase(key)`. -/
def setErase (c : Nat) (l : List Nat) : List Nat := l.filter (fun x => x != c)

/-- What the registry did, in the order it did it. -/
inductive WsEvent where
  | addClient (client : Nat)
  | removeClient (client : Nat)
  | sendFrame (client : Nat) (payload : String)
deriving DecidableEq, Repr

/-- How a call of `broadcastMessage` went: it returned, or its behaviour became undefined;
either way with the registry and the events up to that point. -/
inductive Broadcast where
  | completed (h : WebSocketHandler) (log : List WsEvent)
  | undefined (h : WebSocketHandler) (log : List WsEvent)
deriving DecidableEq, Repr

namespace WebSocketHandler

/-- The method `WebSocketHandler::addClient`: `clients_.insert(client)`. -/
def addClient (h : WebSocketHandler) (client : Nat) : WebSocketHandler :=
  ⟨setInsert client h.clients_⟩

/-- The method `WebSocketHandler::removeClient`: `clients_.erase(client); delete client;`. -/
def removeClient (h : WebSocketHandler) (client : Nat) : WebSocketHandler :=
  ⟨setErase client h.clients_⟩

/-- The range-based `for` of `broadcastMessage` over the elements that are still to be
visited. `sendThrows c` says that `sendFrame` on `c` throws a `Poco::Exception`. Then the
`catch` block calls `removeClient(client)`, which erases from `clients_` the very
element the loop iterator points at; the loop would next increment that invalidated
iterator, which has no defined behaviour, and the run ends there as `undefined`. -/
def broadcastLoop (sendThrows : Nat → Bool) (message : String) :
    List Nat → WebSocketHandler → List WsEvent → Broadcast
  | [], h, log => .completed h log
  | client :: rest, h, log =>
    if sendThrows client then
      .undefined (h.removeClient client)
        (log ++ [.sendFrame client message, .removeClient client])
    else
      broadcastLoop sendThrows message rest h (log ++ [.sendFrame client message])

/-- The method `WebSocketHandler::broadcastMessage`: visits `clients_` from its first
element on. -/
def broadcastMessage (sendThrows : Nat → Bool) (h : WebSocketHandler) (message : String) :
    Broadcast :=
  broadcastLoop sendThrows message h.clients_ h []

end WebSocketHandler

/-! ## `WebSocketHandler::handleRequest` -/

/-- The constant `Poco::Net::WebSocket::FRAME_OP_BITMASK`. -/
def FRAME_OP_BITMASK : Nat := 0x0f

/-- The constant `Poco::Net::WebSocket::FRAME_OP_CLOSE`. -/
def FRAME_OP_CLOSE : Nat := 0x08

/-- What the peer and the network do during one turn of the receive loop. -/
structure Turn where
  /-- The outcome of `receiveFrame`: the byte count `n` and the `flags`, or a throw. -/
  receive : Except Exception (Int × Nat)
  /-- The outcome of the echoing `sendFrame`, which runs only when `n > 0`. -/
  send : Except Exception Unit
deriving DecidableEq

/-- How a run of `WebSocketHandler::handleRequest` ended. -/
structure WsRun where
  /-- The registry when the handler returns. -/
  handler : WebSocketHandler
  /-- The calls of `addClient` and `removeClient` the run made, in order. -/
  log : List WsEvent
  /-- The status the `catch` block set on the response, if it ran. -/
  status : Option Nat
  /-- The exception that left `handleRequest`, if one did. -/
  escaped : Option Exception
deriving DecidableEq

/-- The `do ... while` loop of `handleRequest`. The result is `none` when the turns
run out while the loop still waits in `receiveFrame`, `some (some e)` when
`receiveFrame` or `sendFrame` throws `e`, and `some none` when the loop ends. -/
def receiveLoop : List Turn → Option (Option Exception)
  | [] => none
  | t :: rest =>
    match t.receive with
    | .error e => some (some e)
    | .ok (n, flags) =>
      match (if n > 0 then t.send else .ok ()) with
      | .error e => some (some e)
      | .ok _ =>
        if n > 0 ∧ (flags &&& FRAME_OP_BITMASK) ≠ FRAME_OP_CLOSE then receiveLoop rest
        else some none

namespace WebSocketHandler

/-- The `catch (const Poco::Net::WebSocketException&)` of `handleRequest`: a WebSocket
exception sets status 400 and the handler returns, any other exception leaves
the handler. -/
def catchWebSocket (h : WebSocketHandler) (log : List WsEvent) (e : Exception) : WsRun :=
  if e.isWebSocket then ⟨h, log, some 400, none⟩ else ⟨h, log, none, some e⟩

/-- The method `WebSocketHandler::handleRequest`. `upgrade` is the outcome of
`new Poco::Net::WebSocket(request, response)`, the address of the new connection or
a throw, and `turns` is what happens in the receive loop. -/
def handleRequest (h : WebSocketHandler) (upgrade : Except Exception Nat)
    (turns : List Turn) : Option WsRun :=
  match upgrade with
  | .error e => some (catchWebSocket h [] e)
  | .ok ws =>
    let h1 := h.addClient ws
    match receiveLoop turns with
    | none => none
    | some (some e) => some (catchWebSocket h1 [.addClient ws] e)
    | some none => some ⟨h1.removeClient ws, [.addClient ws, .removeClient ws], none, none⟩

end WebSocketHandler

/-- The number of times `removeClient` was applied to a connection. -/
def removeCount (ws : Nat) (log : List WsEvent) : Nat :=
  log.count (.removeClient ws)

/-! ## `TodoHandler::handleRequest` -/

/-- The parts of a `Poco::Net::HTTPServerRequest` that the router reads. -/
structure Request (Stream : Type) where
  method : String
  uri : String
  stream : Stream

/-- The objects `TodoHandler::handleRequest` works on: the two objects the handler
refers to, the response under construction, and a record of the calls made on the
registry. -/
structure HandlerState where
  storage_ : TodoStorage
  wsHandler_ : WebSocketHandler
  /-- The status of the response; a fresh response has status 200. -/
  status : Nat
  jsonResponse : JsonObject
  /-- The messages passed to `broadcastMessage`, in call order. -/
  broadcasts : List String
  /-- The events of the registry, in order. -/
  wsLog : List WsEvent
deriving DecidableEq

/-- The constant `Poco::Net::HTTPResponse::HTTP_OK`. -/
def HTTP_OK : Nat := 200

/-- The constant `Poco::Net::HTTPResponse::HTTP_BAD_REQUEST`. -/
def HTTP_BAD_REQUEST : Nat := 400

/-- The constant `Poco::Net::HTTPResponse::HTTP_NOT_FOUND`. -/
def HTTP_NOT_FOUND : Nat := 404

/-- The test `path.find("/todos/") == 0`. -/
def startsWithTodos (path : String) : Bool := "/todos/".toList.isPrefixOf path.toList

/-- The expression `path.substr(7)`. -/
def substr7 (path : String) : List Char := path.toList.drop 7

/-- The text of a broadcast event. -/
def eventMessage (action : String) (id : Int) : String :=
  "\x7b\"action\":\"" ++ action ++ "\",\"id\":" ++ to_string id ++ "\x7d"

namespace TodoHandler

variable {Stream Obj : Type}

/-- The call `wsHandler_.broadcastMessage(message)` made from the router. The result
is `none` when the behaviour of the call is undefined. -/
def broadcast (sendThrows : Nat → Bool) (st : HandlerState) (message : String) :
    Option HandlerState :=
  match st.wsHandler_.broadcastMessage sendThrows message with
  | .undefined _ _ => none
  | .completed h log =>
    some { st with wsHandler_ := h, broadcasts := st.broadcasts ++ [message],
                   wsLog := st.wsLog ++ log }

/-- The `try` block of `TodoHandler::handleRequest`: the exception that left the
block, if any, next to the state at that moment. -/
def tryBlock (J : PocoJson Stream Obj) (sendThrows : Nat → Bool) (st : HandlerState)
    (request : Request Stream) : Option (Option Exception × HandlerState) :=
  let path := request.uri
  let method := request.method
  if path = "/todos" ∧ method = "GET" then
    let r := st.storage_.getAllTodos
    some (none, { st with storage_ := r.2,
                          jsonResponse := st.jsonResponse.set "todos"
                            (.array (JsonUtil.serializeTodos r.1)) })
  else if startsWithTodos path = true ∧ method = "GET" then
    match stoi (substr7 path) with
    | .error e => some (some e, st)
    | .ok id =>
      match st.storage_.getTodo id with
      | (.error e, storage) => some (some e, { st with storage_ := storage })
      | (.ok todo, storage) =>
        some (none, { st with storage_ := storage,
                              jsonResponse := (JsonUtil.serializeTodo todo).map
                                (fun f => (f.1, JsonValue.prim f.2)) })
  else if path = "/todos" ∧ method = "POST" then
    match J.parse request.stream with
    | .error e => some (some e, st)
    | .ok parsedBody =>
      match JsonUtil.deserializeCreateTodo J parsedBody with
      | .error e => some (some e, st)
      | .ok (title, description) =>
        let r := st.storage_.createTodo title description
        let id := r.1
        let st1 := { st with storage_ := r.2,
                             jsonResponse := st.jsonResponse.set "id" (.prim (.int id)) }
        (broadcast sendThrows st1 (eventMessage "createTodo" id)).map (fun s => (none, s))
  else if startsWithTodos path = true ∧ method = "PUT" then
    match stoi (substr7 path) with
    | .error e => some (some e, st)
    | .ok id =>
      match J.parse request.stream with
      | .error e => some (some e, st)
      | .ok parsedBody =>
        match JsonUtil.deserializeModifyTodo J parsedBody with
        | .error e => some (some e, st)
        | .ok (title, description, completed) =>
          match st.storage_.modifyTodo id title description completed with
          | (.error e, storage) => some (some e, { st with storage_ := storage })
          | (.ok _, storage) =>
            let st1 := { st with storage_ := storage,
                                 jsonResponse := st.jsonResponse.set "id" (.prim (.int id)) }
            (broadcast sendThrows st1 (eventMessage "modifyTodo" id)).map (fun s => (none, s))
  else if startsWithTodos path = true ∧ method = "DELETE" then
    match stoi (substr7 path) with
    | .error e => some (some e, st)
    | .ok id =>
      let st1 := { st with storage_ := st.storage_.deleteTodo id,
                           jsonResponse := st.jsonResponse.set "id" (.prim (.int id)) }
      (broadcast sendThrows st1 (eventMessage "deleteTodo" id)).map (fun s => (none, s))
  else
    some (none, { st with status := HTTP_NOT_FOUND,
                          jsonResponse := st.jsonResponse.set "error"
                            (.prim (.string "Invalid endpoint or method")) })

/-- The state in which `handleRequest` starts: the two shared objects, a response
with status 200 and an empty `jsonResponse`. -/
def start (storage : TodoStorage) (wsHandler : WebSocketHandler) : HandlerState :=
  ⟨storage, wsHandler, HTTP_OK, [], [], []⟩

/-- The method `TodoHandler::handleRequest`: the `try` block, then
`catch (std::exception& ex)`, which sets status 400 and the field `"error"`. The
result is `none` when the behaviour of the run is undefined. -/
def handleRequest (J : PocoJson Stream Obj) (sendThrows : Nat → Bool)
    (storage : TodoStorage) (wsHandler : WebSocketHandler) (request : Request Stream) :
    Option HandlerState :=
  match tryBlock J sendThrows (start storage wsHandler) request with
  | none => none
  | some (none, st) => some st
  | some (some ex, st) =>
    some { st with status := HTTP_BAD_REQUEST,
                   jsonResponse := st.jsonResponse.set "error" (.prim (.string ex.what)) }

end TodoHandler

/-! ## A JSON library for the examples -/

/-- A request body that is already parsed: `none` is a body that is not a JSON object,
and an object lists its string and boolean fields. -/
abbrev SampleBody := Option (List (String × (String ⊕ Bool)))

/-- A small instance of the JSON library: a field is read when it is there with
the asked type. -/
def sampleJson : PocoJson SampleBody (List (String × (String ⊕ Bool))) where
  parse b := match b with
    | none => .error (.pocoException "Syntax error")
    | some o => .ok o
  getString o key := match o.lookup key with
    | some (.inl s) => .ok s
    | _ => .error (.pocoException "Invalid access")
  getBool o key := match o.lookup key with
    | some (.inr b) => .ok b
    | _ => .error (.pocoException "Invalid access")

/-! ## Facts about the map and the store methods -/

theorem wrapInt_of_range (x : Int) (h1 : INT_MIN ≤ x) (h2 : x ≤ INT_MAX) : wrapInt x = x := by
  unfold INT_MIN at h1
  unfold INT_MAX at h2
  unfold wrapInt
  omega

theorem wrapInt_wrapInt_add (a b : Int) : wrapInt (wrapInt a + b) = wrapInt (a + b) := by
  unfold wrapInt
  omega

theorem TodoMap.erase_of_not_mem (m : TodoMap) (id : Int) (h : id ∉ m) : m.erase id = m := by
  apply Finmap.ext_lookup
  intro x
  by_cases hx : x = id
  · subst hx
    rw [Finmap.lookup_erase, eq_comm, Finmap.lookup_eq_none]
    exact h
  · exact Finmap.lookup_erase_ne hx

theorem TodoMap.erase_erase_self (m : TodoMap) (id : Int) :
    (m.erase id).erase id = m.erase id :=
  TodoMap.erase_of_not_mem _ _ Finmap.not_mem_erase_self

theorem TodoMap.keys_insert (m : TodoMap) (id : Int) (t : Todo) :
    (m.insert id t).keys = insert id m.keys := by
  ext k
  simp [Finmap.mem_keys, Finmap.mem_insert]

theorem TodoMap.subscript_of_lookup (m : TodoMap) (id : Int) (t : Todo)
    (h : m.lookup id = some t) : TodoMap.subscript m id = (t, m) := by
  simp [TodoMap.subscript, h]

namespace TodoStorage

theorem getTodo_of_lookup_none (s : TodoStorage) (id : Int) (h : s.todos_.lookup id = none) :
    s.getTodo id = (.error (.runtime_error "Todo not found"), s) := by
  simp [getTodo, h]

theorem getTodo_of_lookup_some (s : TodoStorage) (id : Int) (t : Todo)
    (h : s.todos_.lookup id = some t) : s.getTodo id = (.ok t, s) := by
  simp [getTodo, h, TodoMap.subscript_of_lookup _ _ _ h]

theorem getTodo_snd (s : TodoStorage) (id : Int) : (s.getTodo id).2 = s := by
  cases h : s.todos_.lookup id with
  | none => rw [getTodo_of_lookup_none s id h]
  | some t => rw [getTodo_of_lookup_some s id t h]

theorem modifyTodo_of_not_mem (s : TodoStorage) (id : Int) (title description : String)
    (completed : Bool) (h : id ∉ s.todos_) :
    s.modifyTodo id title description completed =
      (.error (.runtime_error "Todo not found"), s) := by
  have h0 : s.todos_.lookup id = none := Finmap.lookup_eq_none.mpr h
  simp [modifyTodo, h0]

theorem modifyTodo_of_mem (s : TodoStorage) (id : Int) (title description : String)
    (completed : Bool) (h : id ∈ s.todos_) :
    s.modifyTodo id title description completed =
      (.ok (), { s with todos_ := s.todos_.insert id ⟨id, title, description, completed⟩ }) := by
  have h0 : ¬ s.todos_.lookup id = none := fun hn => (Finmap.lookup_eq_none.mp hn) h
  simp [modifyTodo, h0]

theorem modifyTodo_nextId (s : TodoStorage) (id : Int) (title description : String)
    (completed : Bool) : (s.modifyTodo id title description completed).2.nextId_ = s.nextId_ := by
  by_cases h : id ∈ s.todos_
  · rw [modifyTodo_of_mem _ _ _ _ _ h]
  · rw [modifyTodo_of_not_mem _ _ _ _ _ h]

theorem createTodo_then_getTodo (s : TodoStorage) (title description : String) :
    ((s.createTodo title description).2.getTodo (s.createTodo title description).1).1 =
      .ok ⟨(s.createTodo title description).1, title, description, false⟩ := by
  rw [getTodo_of_lookup_some _ _ ⟨s.nextId_, title, description, false⟩]
  · rfl
  · simp [createTodo, Finmap.lookup_insert]

end TodoStorage

/-! ## Facts about sequences of calls -/

theorem exec_append (s : TodoStorage) (a b : List Op) :
    exec s (a ++ b) = exec (exec s a) b := by
  simp [exec, List.foldl_append]

theorem exec_snoc (s : TodoStorage) (ops : List Op) (op : Op) :
    exec s (ops ++ [op]) = (step (exec s ops) op).2 := by
  simp [exec, List.foldl_append]

theorem calls_append (s : TodoStorage) (a b : List Op) :
    calls s (a ++ b) = calls s a ++ calls (exec s a) b := by
  induction a generalizing s with
  | nil => rfl
  | cons op ops ih =>
    show _ :: calls (step s op).2 (ops ++ b) = _
    rw [ih]
    rfl

theorem calls_snoc (s : TodoStorage) (ops : List Op) (op : Op) :
    calls s (ops ++ [op]) =
      calls s ops ++ [⟨exec s ops, op, (step (exec s ops) op).1, (step (exec s ops) op).2⟩] := by
  rw [calls_append]
  rfl

theorem step_nextId (s : TodoStorage) (op : Op) :
    (step s op).2.nextId_ = if op.isCreate then wrapInt (s.nextId_ + 1) else s.nextId_ := by
  cases op with
  | createTodo t d => rfl
  | getTodo id =>
    have h := TodoStorage.getTodo_snd s id
    simp only [step, Op.isCreate]
    split <;> simp_all
  | getAllTodos => rfl
  | modifyTodo id t d c =>
    have h := TodoStorage.modifyTodo_nextId s id t d c
    simp only [step, Op.isCreate]
    split <;> simp_all
  | deleteTodo id => rfl

theorem numCreates_snoc (ops : List Op) (op : Op) :
    numCreates (ops ++ [op]) = numCreates ops + (if op.isCreate then 1 else 0) := by
  simp [numCreates, List.countP_append, List.countP_cons]

theorem numCreates_replicate (n : Nat) (t d : String) :
    numCreates (List.replicate n (Op.createTodo t d)) = n := by
  induction n with
  | zero => rfl
  | succ k ih =>
    rw [List.replicate_succ, numCreates, List.countP_cons]
    rw [numCreates] at ih
    rw [ih]
    rfl

/-- After any sequence of calls on a fresh store, `nextId_` is one more than the number of
`createTodo` calls, reduced to the range of `int`. -/
theorem exec_nextId (ops : List Op) :
    (exec TodoStorage.new ops).nextId_ = wrapInt (1 + (numCreates ops : Int)) := by
  induction ops using List.reverseRecOn with
  | nil => decide
  | append_singleton ops op ih =>
    rw [exec_snoc, step_nextId, ih, numCreates_snoc]
    by_cases hc : op.isCreate = true
    · simp only [hc, if_true, wrapInt_wrapInt_add]
      congr 1
    · simp [hc]

theorem createdIds_snoc (s : TodoStorage) (ops : List Op) (op : Op) :
    createdIds s (ops ++ [op]) =
      createdIds s ops ++ (if op.isCreate then [(exec s ops).nextId_] else []) := by
  unfold createdIds
  rw [calls_snoc, List.filterMap_append]
  congr 1
  cases op with
  | createTodo t d => rfl
  | getTodo id =>
    simp only [List.filterMap_cons, List.filterMap_nil, Call.createdId, Op.isCreate]
    rfl
  | getAllTodos => rfl
  | modifyTodo id t d c =>
    simp only [List.filterMap_cons, List.filterMap_nil, Call.createdId, Op.isCreate]
    rfl
  | deleteTodo id => rfl

/-- The ids issued on a fresh store are `1, 2, 3, ...` reduced to the range of `int`. -/
theorem createdIds_eq (ops : List Op) :
    createdIds TodoStorage.new ops =
      (List.range (numCreates ops)).map (fun (k : Nat) => wrapInt (1 + (k : Int))) := by
  induction ops using List.reverseRecOn with
  | nil => rfl
  | append_singleton ops op ih =>
    rw [createdIds_snoc, ih, numCreates_snoc, exec_nextId]
    by_cases hc : op.isCreate = true
    · simp [hc, List.range_succ]
    · simp [hc]

/-! ## The effect of one call on the map -/

theorem step_createTodo_lookup (s : TodoStorage) (t d : String) (k : Int) :
    (step s (.createTodo t d)).2.todos_.lookup k =
      if k = s.nextId_ then some ⟨s.nextId_, t, d, false⟩ else s.todos_.lookup k := by
  show (s.todos_.insert s.nextId_ ⟨s.nextId_, t, d, false⟩).lookup k = _
  by_cases h : k = s.nextId_
  · subst h
    simp [Finmap.lookup_insert]
  · simp [h, Finmap.lookup_insert_of_ne _ h]

theorem step_getTodo_snd (s : TodoStorage) (id : Int) : (step s (.getTodo id)).2 = s := by
  have h := TodoStorage.getTodo_snd s id
  simp only [step]
  split <;> simp_all

theorem step_getAllTodos_snd (s : TodoStorage) : (step s .getAllTodos).2 = s := rfl

theorem step_modifyTodo_of_mem (s : TodoStorage) (id : Int) (t d : String) (c : Bool)
    (h : id ∈ s.todos_) :
    step s (.modifyTodo id t d c) =
      (.done, { s with todos_ := s.todos_.insert id ⟨id, t, d, c⟩ }) := by
  simp only [step, TodoStorage.modifyTodo_of_mem s id t d c h]

theorem step_modifyTodo_of_not_mem (s : TodoStorage) (id : Int) (t d : String) (c : Bool)
    (h : id ∉ s.todos_) :
    step s (.modifyTodo id t d c) = (.thrown (.runtime_error "Todo not found"), s) := by
  simp only [step, TodoStorage.modifyTodo_of_not_mem s id t d c h]

theorem step_deleteTodo_lookup (s : TodoStorage) (id k : Int) :
    (step s (.deleteTodo id)).2.todos_.lookup k =
      if k = id then none else s.todos_.lookup k := by
  show (s.todos_.erase id).lookup k = _
  by_cases h : k = id
  · subst h
    simp [Finmap.lookup_erase]
  · simp [h, Finmap.lookup_erase_ne h]

/-- A call adds no key other than the id a `createTodo` issues. -/
theorem step_mem (s : TodoStorage) (op : Op) (k : Int) (h : k ∈ (step s op).2.todos_) :
    k ∈ s.todos_ ∨ (op.isCreate = true ∧ k = s.nextId_) := by
  cases op with
  | createTodo t d =>
    have h1 : k ∈ s.todos_.insert s.nextId_ ⟨s.nextId_, t, d, false⟩ := h
    rw [Finmap.mem_insert] at h1
    rcases h1 with h1 | h1
    · exact Or.inr ⟨rfl, h1⟩
    · exact Or.inl h1
  | getTodo id =>
    rw [step_getTodo_snd] at h
    exact Or.inl h
  | getAllTodos => exact Or.inl h
  | modifyTodo id t d c =>
    by_cases hm : id ∈ s.todos_
    · rw [step_modifyTodo_of_mem s id t d c hm] at h
      have h1 : k ∈ s.todos_.insert id ⟨id, t, d, c⟩ := h
      rw [Finmap.mem_insert] at h1
      rcases h1 with h1 | h1
      · subst h1
        exact Or.inl hm
      · exact Or.inl h1
    · rw [step_modifyTodo_of_not_mem s id t d c hm] at h
      exact Or.inl h
  | deleteTodo id =>
    have h1 : k ∈ s.todos_.erase id := h
    rw [Finmap.mem_erase] at h1
    exact Or.inl h1.2

/-- A call keeps the property that every key is the id of its record. -/
theorem step_key_eq_id (s : TodoStorage) (op : Op)
    (hs : ∀ k t, s.todos_.lookup k = some t → t.id = k) :
    ∀ k t, (step s op).2.todos_.lookup k = some t → t.id = k := by
  intro k t h
  cases op with
  | createTodo tt d =>
    rw [step_createTodo_lookup] at h
    by_cases hk : k = s.nextId_
    · simp only [hk, if_true, Option.some.injEq] at h
      rw [← h, hk]
    · simp only [hk, if_false] at h
      exact hs k t h
  | getTodo id =>
    rw [step_getTodo_snd] at h
    exact hs k t h
  | getAllTodos => exact hs k t h
  | modifyTodo id tt d c =>
    by_cases hm : id ∈ s.todos_
    · rw [step_modifyTodo_of_mem s id tt d c hm] at h
      have h1 : (s.todos_.insert id ⟨id, tt, d, c⟩).lookup k = some t := h
      by_cases hk : k = id
      · subst hk
        rw [Finmap.lookup_insert] at h1
        simp only [Option.some.injEq] at h1
        rw [← h1]
      · rw [Finmap.lookup_insert_of_ne _ hk] at h1
        exact hs k t h1
    · rw [step_modifyTodo_of_not_mem s id tt d c hm] at h
      exact hs k t h
  | deleteTodo id =>
    rw [step_deleteTodo_lookup] at h
    by_cases hk : k = id
    · simp [hk] at h
    · simp only [hk, if_false] at h
      exact hs k t h

/-- In every state reached from a fresh store, every key is the id of its record. -/
theorem exec_key_eq_id (ops : List Op) :
    ∀ k t, (exec TodoStorage.new ops).todos_.lookup k = some t → t.id = k := by
  induction ops using List.reverseRecOn with
  | nil =>
    intro k t h
    simp [exec, TodoStorage.new, Finmap.lookup_empty] at h
  | append_singleton ops op ih =>
    rw [exec_snoc]
    exact step_key_eq_id _ op ih

/-- In every state reached from a fresh store, every key is an id that `createTodo` issued. -/
theorem exec_mem_createdIds (ops : List Op) :
    ∀ k, k ∈ (exec TodoStorage.new ops).todos_ → k ∈ createdIds TodoStorage.new ops := by
  induction ops using List.reverseRecOn with
  | nil =>
    intro k h
    exact absurd h Finmap.not_mem_empty
  | append_singleton ops op ih =>
    intro k h
    rw [exec_snoc] at h
    rw [createdIds_snoc, List.mem_append]
    rcases step_mem _ op k h with h1 | ⟨h1, h2⟩
    · exact Or.inl (ih k h1)
    · right
      simp [h1, h2]

/-- While fewer than `2^31` ids were issued, the issued ids are `1, ..., N`. -/
theorem mem_createdIds_bounds (ops : List Op) (hN : numCreates ops < 2147483648) (k : Int)
    (h : k ∈ createdIds TodoStorage.new ops) : 1 ≤ k ∧ k ≤ (numCreates ops : Int) := by
  rw [createdIds_eq, List.mem_map] at h
  obtain ⟨j, hj, rfl⟩ := h
  rw [List.mem_range] at hj
  rw [wrapInt_of_range _ (by unfold INT_MIN; omega) (by unfold INT_MAX; omega)]
  omega

/-! ## C1: the ids issued by `createTodo` -/

/-- C1, as amended: for every sequence of store operations on a fresh `TodoStorage` that
contains at most `2^31 - 1` `createTodo` calls, the ids returned by the `createTodo`
calls, in call order, are strictly increasing and pairwise distinct, whatever calls of
`deleteTodo`, `modifyTodo`, `getTodo` and `getAllTodos` are interleaved. -/
theorem createTodo_ids_strictly_increasing (ops : List Op)
    (hN : numCreates ops < 2147483648) :
    StrictlyIncreasing (createdIds TodoStorage.new ops) ∧
      (createdIds TodoStorage.new ops).Nodup := by
  have hinc : StrictlyIncreasing (createdIds TodoStorage.new ops) := by
    unfold StrictlyIncreasing
    rw [createdIds_eq, List.pairwise_map]
    refine List.Pairwise.imp_of_mem ?_ (List.pairwise_lt_range (numCreates ops))
    intro a b ha hb hab
    rw [List.mem_range] at ha hb
    rw [wrapInt_of_range _ (by unfold INT_MIN; omega) (by unfold INT_MAX; omega),
      wrapInt_of_range _ (by unfold INT_MIN; omega) (by unfold INT_MAX; omega)]
    omega
  exact ⟨hinc, List.Pairwise.imp (fun h => ne_of_lt h) hinc⟩

/-- A run of C1 with a delete between two creates: the deleted id 1 is not issued again. -/
theorem createTodo_ids_strictly_increasing_witness :
    numCreates [.createTodo "a" "b", .deleteTodo 1, .createTodo "c" "d"] < 2147483648 ∧
      createdIds TodoStorage.new [.createTodo "a" "b", .deleteTodo 1, .createTodo "c" "d"]
        = [1, 2] ∧
      StrictlyIncreasing
        (createdIds TodoStorage.new [.createTodo "a" "b", .deleteTodo 1, .createTodo "c" "d"]) ∧
      (createdIds TodoStorage.new
        [.createTodo "a" "b", .deleteTodo 1, .createTodo "c" "d"]).Nodup :=
  ⟨by decide, by decide,
    createTodo_ids_strictly_increasing
      [.createTodo "a" "b", .deleteTodo 1, .createTodo "c" "d"] (by decide)⟩

/-- C1 fails as stated: after `2^31` calls of `createTodo` on a fresh store the counter
`nextId_` has passed `INT_MAX`, the last id returned is `INT_MIN`, and the ids are
not strictly increasing. -/
theorem createTodo_ids_not_increasing_after_overflow :
    ¬ StrictlyIncreasing
      (createdIds TodoStorage.new (List.replicate 2147483648 (Op.createTodo "" ""))) := by
  intro h
  unfold StrictlyIncreasing at h
  rw [createdIds_eq, numCreates_replicate, List.pairwise_map] at h
  have h1 := List.pairwise_iff_getElem.mp h 0 2147483647
    (by rw [List.length_range]; omega) (by rw [List.length_range]; omega) (by omega)
  rw [List.getElem_range, List.getElem_range] at h1
  unfold wrapInt at h1
  omega

/-! ## C2: the invariant of the store -/

/-- C2, as amended: in every store state reached from a fresh `TodoStorage` by calls of
`createTodo`, `getTodo`, `getAllTodos`, `modifyTodo` and `deleteTodo`, failing calls
included, every key `k` maps to a `Todo` whose `id` is `k`; and when the sequence has
fewer than `2^31 - 1` `createTodo` calls, `nextId_` is strictly greater than every key
of the map and than every id `createTodo` has returned. -/
theorem store_invariant (ops : List Op) :
    (∀ k t, (exec TodoStorage.new ops).todos_.lookup k = some t → t.id = k) ∧
    (numCreates ops < 2147483647 →
      (∀ k, k ∈ (exec TodoStorage.new ops).todos_ → k < (exec TodoStorage.new ops).nextId_) ∧
      (∀ id, id ∈ createdIds TodoStorage.new ops → id < (exec TodoStorage.new ops).nextId_)) := by
  refine ⟨exec_key_eq_id ops, fun hN => ?_⟩
  have hid : ∀ id, id ∈ createdIds TodoStorage.new ops →
      id < (exec TodoStorage.new ops).nextId_ := by
    intro id hmem
    have hb := mem_createdIds_bounds ops (by omega) id hmem
    rw [exec_nextId, wrapInt_of_range _ (by unfold INT_MIN; omega) (by unfold INT_MAX; omega)]
    omega
  exact ⟨fun k hk => hid k (exec_mem_createdIds ops k hk), hid⟩

/-- A run of C2 with a failing `modifyTodo`, a failing `getTodo` and a delete. -/
theorem store_invariant_witness :
    numCreates [.createTodo "a" "b", .modifyTodo 9 "x" "y" true, .getTodo 9,
        .createTodo "c" "d", .deleteTodo 1] < 2147483647 ∧
    (exec TodoStorage.new [.createTodo "a" "b", .modifyTodo 9 "x" "y" true, .getTodo 9,
        .createTodo "c" "d", .deleteTodo 1]).nextId_ = 3 ∧
    ((∀ k, k ∈ (exec TodoStorage.new [.createTodo "a" "b", .modifyTodo 9 "x" "y" true,
          .getTodo 9, .createTodo "c" "d", .deleteTodo 1]).todos_ →
        k < (exec TodoStorage.new [.createTodo "a" "b", .modifyTodo 9 "x" "y" true,
          .getTodo 9, .createTodo "c" "d", .deleteTodo 1]).nextId_) ∧
     (∀ id, id ∈ createdIds TodoStorage.new [.createTodo "a" "b", .modifyTodo 9 "x" "y" true,
          .getTodo 9, .createTodo "c" "d", .deleteTodo 1] →
        id < (exec TodoStorage.new [.createTodo "a" "b", .modifyTodo 9 "x" "y" true,
          .getTodo 9, .createTodo "c" "d", .deleteTodo 1]).nextId_)) :=
  ⟨by decide, by decide,
    (store_invariant [.createTodo "a" "b", .modifyTodo 9 "x" "y" true, .getTodo 9,
        .createTodo "c" "d", .deleteTodo 1]).2 (by decide)⟩

/-- C2 fails as stated: after `2^31 - 1` calls of `createTodo` on a fresh store, `nextId_`
is `INT_MIN`, which is below the id 1 that the first call returned. -/
theorem store_invariant_fails_after_overflow :
    ¬ ((∀ k t, (exec TodoStorage.new
            (List.replicate 2147483647 (Op.createTodo "" ""))).todos_.lookup k = some t →
          t.id = k) ∧
       (∀ k, k ∈ (exec TodoStorage.new
            (List.replicate 2147483647 (Op.createTodo "" ""))).todos_ →
          k < (exec TodoStorage.new
            (List.replicate 2147483647 (Op.createTodo "" ""))).nextId_) ∧
       (∀ id, id ∈ createdIds TodoStorage.new
            (List.replicate 2147483647 (Op.createTodo "" "")) →
          id < (exec TodoStorage.new
            (List.replicate 2147483647 (Op.createTodo "" ""))).nextId_)) := by
  rintro ⟨-, -, h⟩
  have h1 := h 1 (by
    rw [createdIds_eq, numCreates_replicate, List.mem_map]
    exact ⟨0, List.mem_range.mpr (by omega), by decide⟩)
  rw [exec_nextId, numCreates_replicate] at h1
  unfold wrapInt at h1
  omega

/-! ## C3: `modifyTodo` -/

/-- C3: for every store, id, title, description and completed flag, `modifyTodo` on an
id that is not a key throws "Todo not found" and leaves the store as it was; on an id
that is a key it succeeds, after which `getTodo(id)` returns exactly
`{id, title, description, completed}`, every other record is as before and `nextId_`
is as before. -/
theorem modifyTodo_spec (s : TodoStorage) (id : Int) (title description : String)
    (completed : Bool) :
    (id ∉ s.todos_ →
      s.modifyTodo id title description completed =
        (.error (.runtime_error "Todo not found"), s)) ∧
    (id ∈ s.todos_ →
      (s.modifyTodo id title description completed).1 = .ok () ∧
      ((s.modifyTodo id title description completed).2.getTodo id).1 =
        .ok ⟨id, title, description, completed⟩ ∧
      (∀ k, k ≠ id →
        (s.modifyTodo id title description completed).2.todos_.lookup k =
          s.todos_.lookup k) ∧
      (s.modifyTodo id title description completed).2.nextId_ = s.nextId_) := by
  refine ⟨TodoStorage.modifyTodo_of_not_mem s id title description completed, fun h => ?_⟩
  rw [TodoStorage.modifyTodo_of_mem s id title description completed h]
  refine ⟨rfl, ?_, ?_, rfl⟩
  · rw [TodoStorage.getTodo_of_lookup_some _ _ ⟨id, title, description, completed⟩]
    exact Finmap.lookup_insert _
  · intro k hk
    exact Finmap.lookup_insert_of_ne _ hk

/-- C3 on a store that holds the records 1 and 2: modifying the absent id 5 fails, and
modifying id 1 replaces the whole record. -/
theorem modifyTodo_spec_witness :
    ((5 : Int) ∉ (exec TodoStorage.new [.createTodo "a" "b", .createTodo "c" "d"]).todos_ ∧
      (exec TodoStorage.new [.createTodo "a" "b", .createTodo "c" "d"]).modifyTodo 5 "x" "y" true
        = (.error (.runtime_error "Todo not found"),
            exec TodoStorage.new [.createTodo "a" "b", .createTodo "c" "d"])) ∧
    ((1 : Int) ∈ (exec TodoStorage.new [.createTodo "a" "b", .createTodo "c" "d"]).todos_ ∧
      (((exec TodoStorage.new [.createTodo "a" "b", .createTodo "c" "d"]).modifyTodo
          1 "x" "" true).2.getTodo 1).1 = .ok ⟨1, "x", "", true⟩) :=
  ⟨⟨by decide,
      (modifyTodo_spec (exec TodoStorage.new [.createTodo "a" "b", .createTodo "c" "d"])
        5 "x" "y" true).1 (by decide)⟩,
    ⟨by decide,
      ((modifyTodo_spec (exec TodoStorage.new [.createTodo "a" "b", .createTodo "c" "d"])
        1 "x" "" true).2 (by decide)).2.1⟩⟩

/-! ## C4: `getTodo` after `createTodo` -/

/-- C4: in every store state reached from a fresh `TodoStorage`, and for every title and
description, when `createTodo(title, description)` returns `id`, the call `getTodo(id)`
made right after it succeeds and returns `{id, title, description, false}`. -/
theorem getTodo_after_createTodo (ops : List Op) (title description : String) :
    (((exec TodoStorage.new ops).createTodo title description).2.getTodo
        ((exec TodoStorage.new ops).createTodo title description).1).1 =
      .ok ⟨((exec TodoStorage.new ops).createTodo title description).1,
            title, description, false⟩ :=
  TodoStorage.createTodo_then_getTodo _ title description

/-! ## C6: `deleteTodo` of an absent id -/

/-- C6: for every store and every id that is not a key, `deleteTodo(id)` returns without
an error and leaves the map and `nextId_` as they were; and for every id, deleting it
twice gives the same store as deleting it once. -/
theorem deleteTodo_absent_is_noop (s : TodoStorage) (id : Int) :
    (id ∉ s.todos_ → s.deleteTodo id = s) ∧
    (s.deleteTodo id).deleteTodo id = s.deleteTodo id := by
  constructor
  · intro h
    show TodoStorage.mk (s.todos_.erase id) s.nextId_ = s
    rw [TodoMap.erase_of_not_mem _ _ h]
  · show TodoStorage.mk ((s.todos_.erase id).erase id) s.nextId_ =
      TodoStorage.mk (s.todos_.erase id) s.nextId_
    rw [TodoMap.erase_erase_self]

/-- C6 on a store that holds the record 1: deleting the absent id 7 changes nothing. -/
theorem deleteTodo_absent_is_noop_witness :
    (7 : Int) ∉ (exec TodoStorage.new [.createTodo "a" "b"]).todos_ ∧
    (exec TodoStorage.new [.createTodo "a" "b"]).deleteTodo 7 =
      exec TodoStorage.new [.createTodo "a" "b"] :=
  ⟨by decide, (deleteTodo_absent_is_noop (exec TodoStorage.new [.createTodo "a" "b"]) 7).1
    (by decide)⟩

/-! ## C5: what `getAllTodos` returns -/

theorem numDeletes_snoc (ops : List Op) (op : Op) :
    numDeletes (ops ++ [op]) = numDeletes ops + (if op.isDelete then 1 else 0) := by
  simp [numDeletes, List.countP_append, List.countP_cons]

theorem numDeleteHits_snoc (s : TodoStorage) (ops : List Op) (op : Op) :
    numDeleteHits s (ops ++ [op]) =
      numDeleteHits s ops +
        (match op with
          | .deleteTodo id => if id ∈ (exec s ops).todos_ then 1 else 0
          | _ => 0) := by
  unfold numDeleteHits
  rw [calls_snoc, List.countP_append]
  congr 1
  cases op <;> simp [List.countP_cons, Call.deleteHit]

theorem numDeleteHits_le_numDeletes (s : TodoStorage) (ops : List Op) :
    numDeleteHits s ops ≤ numDeletes ops := by
  induction ops using List.reverseRecOn with
  | nil => simp [numDeleteHits, numDeletes, calls]
  | append_singleton ops op ih =>
    rw [numDeleteHits_snoc, numDeletes_snoc]
    cases op with
    | deleteTodo id =>
      simp only [Op.isDelete, if_true]
      split <;> omega
    | _ => simp only [Op.isDelete]; omega

theorem writes_snoc (s : TodoStorage) (ops : List Op) (op : Op) :
    writes s (ops ++ [op]) =
      writes s ops ++
        (Call.written ⟨exec s ops, op, (step (exec s ops) op).1,
          (step (exec s ops) op).2⟩).toList := by
  unfold writes
  rw [calls_snoc, List.filterMap_append]
  congr 1

theorem lastWrite_append_nil (k : Int) (ws : List (Int × Todo)) :
    lastWrite k (ws ++ []) = lastWrite k ws := by
  rw [List.append_nil]

theorem lastWrite_snoc (k : Int) (ws : List (Int × Todo)) (w : Int × Todo) :
    lastWrite k (ws ++ [w]) = if w.1 = k then some w.2 else lastWrite k ws := by
  simp [lastWrite, List.foldl_append]

/-- The number of records after a sequence of calls on a fresh store, while fewer than
`2^31` ids were issued: one per `createTodo`, less one per `deleteTodo` that found its id. -/
theorem card_keys_exec (ops : List Op) (hN : numCreates ops < 2147483648) :
    (exec TodoStorage.new ops).todos_.keys.card + numDeleteHits TodoStorage.new ops =
      numCreates ops := by
  induction ops using List.reverseRecOn with
  | nil => rfl
  | append_singleton ops op ih =>
    rw [numCreates_snoc] at hN ⊢
    have hN0 : numCreates ops < 2147483648 := by omega
    have ih := ih hN0
    rw [exec_snoc, numDeleteHits_snoc]
    cases op with
    | createTodo t d =>
      simp only [Op.isCreate, if_true] at hN ⊢
      have hfresh : (exec TodoStorage.new ops).nextId_ ∉ (exec TodoStorage.new ops).todos_.keys := by
        intro hmem
        have hb := mem_createdIds_bounds ops hN0 _
          (exec_mem_createdIds ops _ (Finmap.mem_keys.mp hmem))
        rw [exec_nextId,
          wrapInt_of_range _ (by unfold INT_MIN; omega) (by unfold INT_MAX; omega)] at hb
        omega
      have hk : (step (exec TodoStorage.new ops) (.createTodo t d)).2.todos_.keys =
          insert (exec TodoStorage.new ops).nextId_ (exec TodoStorage.new ops).todos_.keys :=
        TodoMap.keys_insert _ _ _
      rw [hk, Finset.card_insert_of_not_mem hfresh]
      omega
    | getTodo id =>
      rw [step_getTodo_snd]
      simpa [Op.isCreate] using ih
    | getAllTodos =>
      rw [step_getAllTodos_snd]
      simpa [Op.isCreate] using ih
    | modifyTodo id t d c =>
      by_cases hm : id ∈ (exec TodoStorage.new ops).todos_
      · rw [step_modifyTodo_of_mem _ id t d c hm]
        have hk : (Finmap.insert id (⟨id, t, d, c⟩ : Todo) (exec TodoStorage.new ops).todos_).keys =
            (exec TodoStorage.new ops).todos_.keys := by
          rw [TodoMap.keys_insert]
          exact Finset.insert_eq_of_mem (Finmap.mem_keys.mpr hm)
        simp only [hk]
        simpa [Op.isCreate] using ih
      · rw [step_modifyTodo_of_not_mem _ id t d c hm]
        simpa [Op.isCreate] using ih
    | deleteTodo id =>
      have hk : (step (exec TodoStorage.new ops) (.deleteTodo id)).2.todos_.keys =
          (exec TodoStorage.new ops).todos_.keys.erase id :=
        Finmap.keys_erase _ _
      rw [hk]
      simp only [Op.isCreate, Bool.false_eq_true, if_false] at hN ⊢
      by_cases hm : id ∈ (exec TodoStorage.new ops).todos_
      · have hpos : 0 < (exec TodoStorage.new ops).todos_.keys.card :=
          Finset.card_pos.mpr ⟨id, Finmap.mem_keys.mpr hm⟩
        rw [Finset.card_erase_of_mem (Finmap.mem_keys.mpr hm)]
        simp only [hm, if_true]
        omega
      · rw [Finset.erase_eq_of_not_mem (fun h => hm (Finmap.mem_keys.mp h))]
        simp only [hm, if_false]
        omega

/-- Every record of the store is the last one written for its id. -/
theorem lookup_exec_eq_lastWrite (ops : List Op) :
    ∀ k t, (exec TodoStorage.new ops).todos_.lookup k = some t →
      lastWrite k (writes TodoStorage.new ops) = some t := by
  induction ops using List.reverseRecOn with
  | nil =>
    intro k t h
    simp [exec, TodoStorage.new, Finmap.lookup_empty] at h
  | append_singleton ops op ih =>
    intro k t h
    rw [exec_snoc] at h
    rw [writes_snoc]
    cases op with
    | createTodo tt d =>
      rw [step_createTodo_lookup] at h
      show lastWrite k (_ ++ [((exec TodoStorage.new ops).nextId_,
        ⟨(exec TodoStorage.new ops).nextId_, tt, d, false⟩)]) = _
      rw [lastWrite_snoc]
      by_cases hk : k = (exec TodoStorage.new ops).nextId_
      · simp only [hk, if_true] at h ⊢
        exact h
      · simp only [hk, if_false] at h
        rw [if_neg (fun h0 => hk (Eq.symm h0))]
        exact ih k t h
    | getTodo id =>
      rw [step_getTodo_snd] at h
      have hw : Call.written ⟨exec TodoStorage.new ops, .getTodo id,
          (step (exec TodoStorage.new ops) (.getTodo id)).1,
          (step (exec TodoStorage.new ops) (.getTodo id)).2⟩ = none := rfl
      rw [hw]
      exact (lastWrite_append_nil k _).trans (ih k t h)
    | getAllTodos =>
      exact (lastWrite_append_nil k _).trans (ih k t h)
    | modifyTodo id tt d c =>
      by_cases hm : id ∈ (exec TodoStorage.new ops).todos_
      · rw [step_modifyTodo_of_mem _ id tt d c hm] at h ⊢
        show lastWrite k (_ ++ [(id, ⟨id, tt, d, c⟩)]) = _
        rw [lastWrite_snoc]
        have h1 : (Finmap.insert id (⟨id, tt, d, c⟩ : Todo)
            (exec TodoStorage.new ops).todos_).lookup k = some t := h
        by_cases hk : k = id
        · subst hk
          rw [Finmap.lookup_insert] at h1
          simpa using h1
        · rw [Finmap.lookup_insert_of_ne _ hk] at h1
          rw [if_neg (fun h0 => hk (Eq.symm h0))]
          exact ih k t h1
      · rw [step_modifyTodo_of_not_mem _ id tt d c hm] at h ⊢
        exact (lastWrite_append_nil k _).trans (ih k t h)
    | deleteTodo id =>
      rw [step_deleteTodo_lookup] at h
      by_cases hk : k = id
      · simp [hk] at h
      · simp only [hk, if_false] at h
        exact (lastWrite_append_nil k _).trans (ih k t h)

/-- C5, as amended: after any sequence of store operations on a fresh `TodoStorage`, every
record that `getAllTodos` returns equals what the last `createTodo` or successful
`modifyTodo` on its id wrote; and when the sequence has N `createTodo` calls with
N at most `2^31 - 1`, and M `deleteTodo` calls of which H found their id in the store,
`getAllTodos` returns exactly N - H records, which is at least, not at most, N - M. -/
theorem getAllTodos_after_ops (ops : List Op) :
    (∀ k t, (exec TodoStorage.new ops).getAllTodos.1.lookup k = some t →
      lastWrite k (writes TodoStorage.new ops) = some t) ∧
    (numCreates ops < 2147483648 →
      (((exec TodoStorage.new ops).getAllTodos.1.keys.card : Int) =
        (numCreates ops : Int) - (numDeleteHits TodoStorage.new ops : Int)) ∧
      (numCreates ops : Int) - (numDeletes ops : Int) ≤
        ((exec TodoStorage.new ops).getAllTodos.1.keys.card : Int)) := by
  refine ⟨lookup_exec_eq_lastWrite ops, fun hN => ?_⟩
  have h1 := card_keys_exec ops hN
  have h2 := numDeleteHits_le_numDeletes TodoStorage.new ops
  have h3 : (exec TodoStorage.new ops).getAllTodos.1 = (exec TodoStorage.new ops).todos_ := rfl
  rw [h3]
  omega

/-- C5, as amended, on a run with two creates, a modify and three deletes of which one
finds its id: one record is left, the one the modify wrote. -/
theorem getAllTodos_after_ops_witness :
    numCreates [.createTodo "a" "b", .createTodo "c" "d", .modifyTodo 2 "x" "y" true,
        .deleteTodo 1, .deleteTodo 1, .deleteTodo 7] < 2147483648 ∧
    (exec TodoStorage.new [.createTodo "a" "b", .createTodo "c" "d",
        .modifyTodo 2 "x" "y" true, .deleteTodo 1, .deleteTodo 1,
        .deleteTodo 7]).getAllTodos.1.lookup 2 = some ⟨2, "x", "y", true⟩ ∧
    numDeleteHits TodoStorage.new [.createTodo "a" "b", .createTodo "c" "d",
        .modifyTodo 2 "x" "y" true, .deleteTodo 1, .deleteTodo 1, .deleteTodo 7] = 1 ∧
    (((exec TodoStorage.new [.createTodo "a" "b", .createTodo "c" "d",
        .modifyTodo 2 "x" "y" true, .deleteTodo 1, .deleteTodo 1,
        .deleteTodo 7]).getAllTodos.1.keys.card : Int) =
      (numCreates [.createTodo "a" "b", .createTodo "c" "d", .modifyTodo 2 "x" "y" true,
        .deleteTodo 1, .deleteTodo 1, .deleteTodo 7] : Int) -
      (numDeleteHits TodoStorage.new [.createTodo "a" "b", .createTodo "c" "d",
        .modifyTodo 2 "x" "y" true, .deleteTodo 1, .deleteTodo 1, .deleteTodo 7] : Int)) ∧
    lastWrite 2 (writes TodoStorage.new [.createTodo "a" "b", .createTodo "c" "d",
        .modifyTodo 2 "x" "y" true, .deleteTodo 1, .deleteTodo 1, .deleteTodo 7]) =
      some ⟨2, "x", "y", true⟩ :=
  ⟨by decide, by decide, by decide,
    ((getAllTodos_after_ops [.createTodo "a" "b", .createTodo "c" "d",
        .modifyTodo 2 "x" "y" true, .deleteTodo 1, .deleteTodo 1, .deleteTodo 7]).2
      (by decide)).1,
    (getAllTodos_after_ops [.createTodo "a" "b", .createTodo "c" "d",
        .modifyTodo 2 "x" "y" true, .deleteTodo 1, .deleteTodo 1, .deleteTodo 7]).1 2 _
      (by decide)⟩

/-- C5 fails as stated: after two `createTodo` calls and two `deleteTodo` calls that overlap
on the id 1, N - M is 0, yet `getAllTodos` returns one record (the record 2), which is
neither N - M records nor fewer. -/
theorem getAllTodos_count_counterexample :
    ¬ ((((exec TodoStorage.new [.createTodo "a" "b", .createTodo "c" "d", .deleteTodo 1,
            .deleteTodo 1]).getAllTodos.1.keys.card : Int) =
        (numCreates [.createTodo "a" "b", .createTodo "c" "d", .deleteTodo 1,
            .deleteTodo 1] : Int) -
          (numDeletes [.createTodo "a" "b", .createTodo "c" "d", .deleteTodo 1,
            .deleteTodo 1] : Int)) ∨
       (((exec TodoStorage.new [.createTodo "a" "b", .createTodo "c" "d", .deleteTodo 1,
            .deleteTodo 1]).getAllTodos.1.keys.card : Int) <
        (numCreates [.createTodo "a" "b", .createTodo "c" "d", .deleteTodo 1,
            .deleteTodo 1] : Int) -
          (numDeletes [.createTodo "a" "b", .createTodo "c" "d", .deleteTodo 1,
            .deleteTodo 1] : Int))) := by
  decide

/-! ## The registry: broadcast and the connection loop -/

/-- When no `sendFrame` throws, the loop of `broadcastMessage` returns, leaves the
registry as it was and sends the message once to every element, in order. -/
theorem WebSocketHandler.broadcastLoop_of_no_throw (sendThrows : Nat → Bool)
    (message : String) (l : List Nat) (h : WebSocketHandler) (log : List WsEvent)
    (hl : ∀ c, c ∈ l → sendThrows c = false) :
    WebSocketHandler.broadcastLoop sendThrows message l h log =
      .completed h (log ++ l.map (fun c => WsEvent.sendFrame c message)) := by
  induction l generalizing log with
  | nil => simp [WebSocketHandler.broadcastLoop]
  | cons c rest ih =>
    have hc : sendThrows c = false := hl c (List.mem_cons_self _ _)
    simp only [WebSocketHandler.broadcastLoop, hc, Bool.false_eq_true, if_false]
    rw [ih _ (fun x hx => hl x (List.mem_cons_of_mem _ hx))]
    simp

/-- When the loop of `broadcastMessage` returns, no `sendFrame` threw, the registry is
as it was and the message went once to every element, in order. -/
theorem WebSocketHandler.broadcastLoop_completed (sendThrows : Nat → Bool)
    (message : String) (l : List Nat) (h h1 : WebSocketHandler) (log log1 : List WsEvent)
    (hr : WebSocketHandler.broadcastLoop sendThrows message l h log = .completed h1 log1) :
    h1 = h ∧ log1 = log ++ l.map (fun c => WsEvent.sendFrame c message) ∧
      ∀ c, c ∈ l → sendThrows c = false := by
  induction l generalizing log with
  | nil =>
    simp only [WebSocketHandler.broadcastLoop, Broadcast.completed.injEq] at hr
    simp [hr.1, hr.2]
  | cons c rest ih =>
    by_cases hc : sendThrows c = true
    · simp [WebSocketHandler.broadcastLoop, hc] at hr
    · simp only [WebSocketHandler.broadcastLoop, hc, if_false] at hr
      obtain ⟨e1, e2, e3⟩ := ih _ hr
      refine ⟨e1, by simp [e2], ?_⟩
      intro x hx
      rcases List.mem_cons.mp hx with hx | hx
      · subst hx
        simpa using hc
      · exact e3 x hx

/-- When a `sendFrame` throws, the behaviour of the loop of `broadcastMessage` is
undefined. -/
theorem WebSocketHandler.broadcastLoop_undefined (sendThrows : Nat → Bool)
    (message : String) (l : List Nat) (h : WebSocketHandler) (log : List WsEvent)
    (c : Nat) (hc : c ∈ l) (ht : sendThrows c = true) :
    ∃ h1 log1, WebSocketHandler.broadcastLoop sendThrows message l h log =
      .undefined h1 log1 := by
  induction l generalizing log with
  | nil => simp at hc
  | cons x rest ih =>
    by_cases hx : sendThrows x = true
    · simp only [WebSocketHandler.broadcastLoop, hx, if_true]
      exact ⟨_, _, rfl⟩
    · simp only [WebSocketHandler.broadcastLoop, hx, if_false]
      rcases List.mem_cons.mp hc with hcx | hcx
      · subst hcx
        exact absurd ht hx
      · exact ih _ hcx

theorem setErase_not_mem (c : Nat) (l : List Nat) : c ∉ setErase c l := by
  simp [setErase, List.mem_filter]

theorem setInsert_mem (c : Nat) (l : List Nat) : c ∈ setInsert c l := by
  induction l with
  | nil => simp [setInsert]
  | cons x xs ih =>
    unfold setInsert
    split
    · simp
    · split
      · rename_i h
        simp [h]
      · simp [ih]

/-- When the receive loop ends without a throw, `handleRequest` applies `removeClient` to
the connection once, and the connection is not registered when the handler returns. -/
theorem WebSocketHandler.handleRequest_of_loop_end (h : WebSocketHandler) (ws : Nat)
    (turns : List Turn) (hl : receiveLoop turns = some none) :
    ∃ r, WebSocketHandler.handleRequest h (.ok ws) turns = some r ∧
      removeCount ws r.log = 1 ∧ ws ∉ r.handler.clients_ := by
  simp only [WebSocketHandler.handleRequest, hl]
  refine ⟨_, rfl, ?_, ?_⟩
  · simp [removeCount]
  · exact setErase_not_mem ws _

/-- When `receiveFrame` or the echoing `sendFrame` throws, `handleRequest` never applies
`removeClient` to the connection, which is still registered when the handler is left. -/
theorem WebSocketHandler.handleRequest_of_loop_throw (h : WebSocketHandler) (ws : Nat)
    (turns : List Turn) (e : Exception) (hl : receiveLoop turns = some (some e)) :
    ∃ r, WebSocketHandler.handleRequest h (.ok ws) turns = some r ∧
      removeCount ws r.log = 0 ∧ ws ∈ r.handler.clients_ := by
  simp only [WebSocketHandler.handleRequest, hl]
  refine ⟨_, rfl, ?_, ?_⟩
  · unfold WebSocketHandler.catchWebSocket
    split <;> simp [removeCount]
  · unfold WebSocketHandler.catchWebSocket
    split <;> exact setInsert_mem ws _

/-! ## C9: a connection that ends with an error stays registered -/

/-- C9, evaluated where it fails: the upgrade succeeds, the connection 5 is registered,
and the first `receiveFrame` throws a `WebSocketException`. The handler sets status 400
and returns without any call of `removeClient`: the connection is still in `clients_`. -/
theorem handleRequest_receive_throw_keeps_client :
    WebSocketHandler.handleRequest ⟨[]⟩ (.ok 5)
        [⟨.error (.webSocketException "connection reset"), .ok ()⟩] =
      some ⟨⟨[5]⟩, [.addClient 5], some 400, none⟩ ∧
    removeCount 5 [.addClient 5] = 0 ∧ 5 ∈ (WebSocketHandler.mk [5]).clients_ := by
  decide

/-! ## C7: the broadcast after a successful change -/

/-- C7, evaluated where it fails: the connections 1 and 2 are registered, `sendFrame` on
connection 1 throws, and a well-formed `POST /todos` arrives. `broadcastMessage` erases
connection 1 from `clients_` inside the loop over `clients_`; its behaviour is undefined
from there on, and connection 2 has not been sent the message. -/
theorem broadcast_send_throw_is_undefined :
    WebSocketHandler.broadcastMessage (fun c => c == 1) ⟨[1, 2]⟩
        (eventMessage "createTodo" 1) =
      .undefined ⟨[2]⟩
        [.sendFrame 1 (eventMessage "createTodo" 1), .removeClient 1] ∧
    TodoHandler.handleRequest sampleJson (fun c => c == 1) TodoStorage.new ⟨[1, 2]⟩
        ⟨"POST", "/todos", some [("title", .inl "a"), ("description", .inl "b")]⟩ =
      none := by
  decide

/-! ## The router -/

theorem startsWithTodos_ne_todos (path : String) (h : startsWithTodos path = true) :
    path ≠ "/todos" := by
  intro hp
  subst hp
  revert h
  decide

namespace TodoHandler

variable {Stream Obj : Type}

/-- A broadcast that returns leaves the store, the status and the body as they were, adds
its message to the broadcasts and one `sendFrame` per registered connection to the log. -/
theorem broadcast_eq_some (sendThrows : Nat → Bool) (st st1 : HandlerState) (message : String)
    (h : broadcast sendThrows st message = some st1) :
    st1 = { st with broadcasts := st.broadcasts ++ [message],
                    wsLog := st.wsLog ++
                      st.wsHandler_.clients_.map (fun c => WsEvent.sendFrame c message) } := by
  unfold broadcast at h
  split at h
  · exact absurd h (by simp)
  · rename_i h1 log hb
    obtain ⟨e1, e2, -⟩ :=
      WebSocketHandler.broadcastLoop_completed sendThrows message _ _ _ _ _ hb
    simp only [Option.some.injEq] at h
    rw [← h, e1, e2]
    simp

/-- When the `try` block is left by an exception, nothing was changed before the throw. -/
theorem tryBlock_throw (J : PocoJson Stream Obj) (sendThrows : Nat → Bool)
    (st st1 : HandlerState) (request : Request Stream) (e : Exception)
    (h : tryBlock J sendThrows st request = some (some e, st1)) : st1 = st := by
  unfold tryBlock at h
  simp only at h
  split_ifs at h
  · simp at h
  · split at h
    · simp only [Option.some.injEq, Prod.mk.injEq] at h
      exact h.2.symm
    · rename_i id _
      split at h
      · rename_i e1 storage hg
        have hs := TodoStorage.getTodo_snd st.storage_ id
        rw [hg] at hs
        simp only at hs
        simp only [Option.some.injEq, Prod.mk.injEq] at h
        rw [← h.2, hs]
      · simp at h
  · split at h
    · simp only [Option.some.injEq, Prod.mk.injEq] at h
      exact h.2.symm
    · split at h
      · simp only [Option.some.injEq, Prod.mk.injEq] at h
        exact h.2.symm
      · simp at h
  · split at h
    · simp only [Option.some.injEq, Prod.mk.injEq] at h
      exact h.2.symm
    · rename_i id _
      split at h
      · simp only [Option.some.injEq, Prod.mk.injEq] at h
        exact h.2.symm
      · split at h
        · simp only [Option.some.injEq, Prod.mk.injEq] at h
          exact h.2.symm
        · rename_i title description completed _
          split at h
          · rename_i e1 storage hg
            have hs : (st.storage_.modifyTodo id title description completed).2 =
                st.storage_ := by
              by_cases hm : id ∈ st.storage_.todos_
              · rw [TodoStorage.modifyTodo_of_mem _ _ _ _ _ hm] at hg
                simp at hg
              · rw [TodoStorage.modifyTodo_of_not_mem _ _ _ _ _ hm]
            rw [hg] at hs
            simp only at hs
            simp only [Option.some.injEq, Prod.mk.injEq] at h
            rw [← h.2, hs]
          · simp at h
  · split at h
    · simp only [Option.some.injEq, Prod.mk.injEq] at h
      exact h.2.symm
    · simp at h
  · simp at h

end TodoHandler

namespace TodoHandler

variable {Stream Obj : Type}

/-- When the `try` block ends without an exception, either the status is untouched, or the
request was not routed: then the status is 404, the body gains the field `"error"`, and
nothing else changes. -/
theorem tryBlock_return (J : PocoJson Stream Obj) (sendThrows : Nat → Bool)
    (st st1 : HandlerState) (request : Request Stream)
    (h : tryBlock J sendThrows st request = some (none, st1)) :
    st1.status = st.status ∨
      st1 = { st with status := HTTP_NOT_FOUND,
                      jsonResponse := st.jsonResponse.set "error"
                        (.prim (.string "Invalid endpoint or method")) } := by
  unfold tryBlock at h
  simp only at h
  split_ifs at h
  · simp only [Option.some.injEq, Prod.mk.injEq, true_and] at h
    left
    rw [← h]
  · split at h
    · simp at h
    · split at h
      · simp at h
      · simp only [Option.some.injEq, Prod.mk.injEq, true_and] at h
        left
        rw [← h]
  · split at h
    · simp at h
    · split at h
      · simp at h
      · simp only [Option.map_eq_some', Prod.mk.injEq, true_and, exists_eq_right] at h
        left
        rw [broadcast_eq_some _ _ _ _ h]
  · split at h
    · simp at h
    · split at h
      · simp at h
      · split at h
        · simp at h
        · split at h
          · simp at h
          · simp only [Option.map_eq_some', Prod.mk.injEq, true_and, exists_eq_right] at h
            left
            rw [broadcast_eq_some _ _ _ _ h]
  · split at h
    · simp at h
    · simp only [Option.map_eq_some', Prod.mk.injEq, true_and, exists_eq_right] at h
      left
      rw [broadcast_eq_some _ _ _ _ h]
  · simp only [Option.some.injEq, Prod.mk.injEq, true_and] at h
    right
    exact h.symm

/-- A successful answer to `POST /todos`: the body is `{"id": N}`, there is one broadcast,
of the `createTodo` event of `N`, and one `sendFrame` of it per registered connection. -/
theorem handleRequest_post_ok (J : PocoJson Stream Obj) (sendThrows : Nat → Bool)
    (storage : TodoStorage) (wsHandler : WebSocketHandler) (request : Request Stream)
    (st : HandlerState) (hu : request.uri = "/todos") (hm : request.method = "POST")
    (h : handleRequest J sendThrows storage wsHandler request = some st)
    (hs : st.status = HTTP_OK) :
    ∃ N, st.jsonResponse = [("id", .prim (.int N))] ∧
      st.broadcasts = [eventMessage "createTodo" N] ∧
      st.wsLog = wsHandler.clients_.map (fun c => WsEvent.sendFrame c (eventMessage "createTodo" N)) := by
  have e1 : ¬ ("POST" : String) = "GET" := by decide
  have e2 : startsWithTodos "/todos" = false := by decide
  unfold handleRequest tryBlock at h
  simp only [hu, hm, e1, e2, and_false, and_true, if_false, if_true, Bool.false_eq_true,
    false_and] at h
  split at h
  · simp at h
  · rename_i st1 ht
    simp only [Option.some.injEq] at h
    subst h
    split at ht
    · simp at ht
    · split at ht
      · simp at ht
      · simp only [Option.map_eq_some', Prod.mk.injEq, true_and, exists_eq_right] at ht
        rw [broadcast_eq_some _ _ _ _ ht]
        exact ⟨_, rfl, rfl, rfl⟩
  · rename_i ex st1 ht
    simp only [Option.some.injEq] at h
    subst h
    have hne : HTTP_BAD_REQUEST ≠ HTTP_OK := by decide
    exact absurd hs hne

/-- A successful answer to `PUT /todos/{id}`: the body is `{"id": N}`, there is one
broadcast, of the `modifyTodo` event of `N`, and one `sendFrame` of it per registered
connection. -/
theorem handleRequest_put_ok (J : PocoJson Stream Obj) (sendThrows : Nat → Bool)
    (storage : TodoStorage) (wsHandler : WebSocketHandler) (request : Request Stream)
    (st : HandlerState) (hu : startsWithTodos request.uri = true) (hm : request.method = "PUT")
    (h : handleRequest J sendThrows storage wsHandler request = some st)
    (hs : st.status = HTTP_OK) :
    ∃ N, st.jsonResponse = [("id", .prim (.int N))] ∧
      st.broadcasts = [eventMessage "modifyTodo" N] ∧
      st.wsLog = wsHandler.clients_.map (fun c => WsEvent.sendFrame c (eventMessage "modifyTodo" N)) := by
  have e1 : ¬ ("PUT" : String) = "GET" := by decide
  have e2 : ¬ ("PUT" : String) = "POST" := by decide
  have e3 := startsWithTodos_ne_todos _ hu
  unfold handleRequest tryBlock at h
  simp only [hu, hm, e1, e2, e3, and_false, and_true, if_false, if_true, false_and] at h
  split at h
  · simp at h
  · rename_i st1 ht
    simp only [Option.some.injEq] at h
    subst h
    split at ht
    · simp at ht
    · split at ht
      · simp at ht
      · split at ht
        · simp at ht
        · split at ht
          · simp at ht
          · simp only [Option.map_eq_some', Prod.mk.injEq, true_and, exists_eq_right] at ht
            rw [broadcast_eq_some _ _ _ _ ht]
            exact ⟨_, rfl, rfl, rfl⟩
  · rename_i ex st1 ht
    simp only [Option.some.injEq] at h
    subst h
    have hne : HTTP_BAD_REQUEST ≠ HTTP_OK := by decide
    exact absurd hs hne

/-- A successful answer to `DELETE /todos/{id}`: the body is `{"id": N}`, there is one
broadcast, of the `deleteTodo` event of `N`, and one `sendFrame` of it per registered
connection. -/
theorem handleRequest_delete_ok (J : PocoJson Stream Obj) (sendThrows : Nat → Bool)
    (storage : TodoStorage) (wsHandler : WebSocketHandler) (request : Request Stream)
    (st : HandlerState) (hu : startsWithTodos request.uri = true)
    (hm : request.method = "DELETE")
    (h : handleRequest J sendThrows storage wsHandler request = some st)
    (hs : st.status = HTTP_OK) :
    ∃ N, st.jsonResponse = [("id", .prim (.int N))] ∧
      st.broadcasts = [eventMessage "deleteTodo" N] ∧
      st.wsLog = wsHandler.clients_.map (fun c => WsEvent.sendFrame c (eventMessage "deleteTodo" N)) := by
  have e1 : ¬ ("DELETE" : String) = "GET" := by decide
  have e2 : ¬ ("DELETE" : String) = "POST" := by decide
  have e4 : ¬ ("DELETE" : String) = "PUT" := by decide
  have e3 := startsWithTodos_ne_todos _ hu
  unfold handleRequest tryBlock at h
  simp only [hu, hm, e1, e2, e3, e4, and_false, and_true, if_false, if_true, false_and] at h
  split at h
  · simp at h
  · rename_i st1 ht
    simp only [Option.some.injEq] at h
    subst h
    split at ht
    · simp at ht
    · simp only [Option.map_eq_some', Prod.mk.injEq, true_and, exists_eq_right] at ht
      rw [broadcast_eq_some _ _ _ _ ht]
      exact ⟨_, rfl, rfl, rfl⟩
  · rename_i ex st1 ht
    simp only [Option.some.injEq] at h
    subst h
    have hne : HTTP_BAD_REQUEST ≠ HTTP_OK := by decide
    exact absurd hs hne

end TodoHandler

/-! ## C8: the id in the path -/

/-- The cases in which `std::stoi` throws: no digit follows the optional white space and
sign, or the number written by the leading digits is not an `int`. -/
theorem stoi_error_iff (s : List Char) (e : Exception) :
    stoi s = .error e ↔
      (leadingDigits s = [] ∧ e = .invalid_argument "stoi") ∨
      (leadingDigits s ≠ [] ∧ (leadingNumber s < INT_MIN ∨ INT_MAX < leadingNumber s) ∧
        e = .out_of_range "stoi") := by
  unfold stoi
  by_cases h1 : leadingDigits s = []
  · simp [h1, eq_comm]
  · by_cases h2 : leadingNumber s < INT_MIN ∨ INT_MAX < leadingNumber s
    · simp [h1, h2, eq_comm]
    · simp [h1, h2]

/-- C8, as amended: for every request with method GET, PUT or DELETE whose path starts with
"/todos/", the id is read by `std::stoi` from the rest of the path after these 7
characters; whenever `std::stoi` throws on that rest (no decimal digit follows the
optional white space and sign, as for the empty rest and for "abc", or the number is not
an `int`), the router answers 400 with the body `{"error": message}`, and the store, the
registry and the broadcasts are untouched. A rest that starts with a number, such as
"12abc", is not covered: `std::stoi` reads the number and ignores what follows. -/
theorem malformed_id_is_rejected {Stream Obj : Type} (J : PocoJson Stream Obj)
    (sendThrows : Nat → Bool) (storage : TodoStorage) (wsHandler : WebSocketHandler)
    (request : Request Stream) (e : Exception)
    (hm : request.method = "GET" ∨ request.method = "PUT" ∨ request.method = "DELETE")
    (hu : startsWithTodos request.uri = true)
    (he : stoi (substr7 request.uri) = .error e) :
    TodoHandler.handleRequest J sendThrows storage wsHandler request =
      some ⟨storage, wsHandler, HTTP_BAD_REQUEST, [("error", .prim (.string e.what))], [], []⟩ := by
  have e1 : ¬ ("PUT" : String) = "GET" := by decide
  have e2 : ¬ ("PUT" : String) = "POST" := by decide
  have e3 := startsWithTodos_ne_todos _ hu
  have e4 : ¬ ("DELETE" : String) = "GET" := by decide
  have e5 : ¬ ("DELETE" : String) = "POST" := by decide
  have e6 : ¬ ("DELETE" : String) = "PUT" := by decide
  unfold TodoHandler.handleRequest TodoHandler.tryBlock
  rcases hm with hm | hm | hm <;>
    simp only [hu, hm, he, e1, e2, e3, e4, e5, e6, and_false, and_true, if_false, if_true,
      false_and] <;> rfl

/-- C8, as amended, on `GET /todos/abc`, `PUT /todos/` and `DELETE /todos/x1`. -/
theorem malformed_id_is_rejected_witness :
    stoi (substr7 "/todos/abc") = .error (.invalid_argument "stoi") ∧
    TodoHandler.handleRequest sampleJson (fun _ => false)
        (exec TodoStorage.new [.createTodo "a" "b"]) ⟨[4]⟩ ⟨"GET", "/todos/abc", none⟩ =
      some ⟨exec TodoStorage.new [.createTodo "a" "b"], ⟨[4]⟩, HTTP_BAD_REQUEST,
        [("error", .prim (.string "stoi"))], [], []⟩ :=
  ⟨by decide,
    malformed_id_is_rejected sampleJson (fun _ => false)
      (exec TodoStorage.new [.createTodo "a" "b"]) ⟨[4]⟩ ⟨"GET", "/todos/abc", none⟩
      (.invalid_argument "stoi") (Or.inl rfl) (by decide) (by decide)⟩

/-- C8 fails as stated: the rest "1abc" of the path "/todos/1abc" is not a decimal number,
yet `DELETE /todos/1abc` is answered with status 200 and the body `{"id": 1}`; the record
1 is deleted from the store and the `deleteTodo` event of 1 is broadcast. -/
theorem digits_then_letters_is_accepted :
    substr7 "/todos/1abc" = ['1', 'a', 'b', 'c'] ∧
    stoi (substr7 "/todos/1abc") = .ok 1 ∧
    (1 : Int) ∈ (exec TodoStorage.new [.createTodo "a" "b"]).todos_ ∧
    TodoHandler.handleRequest sampleJson (fun _ => false)
        (exec TodoStorage.new [.createTodo "a" "b"]) ⟨[4]⟩ ⟨"DELETE", "/todos/1abc", none⟩ =
      some ⟨⟨∅, 2⟩, ⟨[4]⟩, HTTP_OK, [("id", .prim (.int 1))],
        [eventMessage "deleteTodo" 1], [.sendFrame 4 (eventMessage "deleteTodo" 1)]⟩ := by
  decide

/-! ## C10: an error answer changes nothing -/

/-- C10: for every store, registry and request that `TodoHandler::handleRequest` answers
with an error status, the status is 400 or 404, the store after the request (map and
`nextId_`) is the store before it, no `broadcastMessage` call and no `sendFrame` was
made, and the body is a JSON object with the single field `"error"`. -/
theorem error_answer_changes_nothing {Stream Obj : Type} (J : PocoJson Stream Obj)
    (sendThrows : Nat → Bool) (storage : TodoStorage) (wsHandler : WebSocketHandler)
    (request : Request Stream) (st : HandlerState)
    (h : TodoHandler.handleRequest J sendThrows storage wsHandler request = some st)
    (hs : st.status ≠ HTTP_OK) :
    (st.status = HTTP_BAD_REQUEST ∨ st.status = HTTP_NOT_FOUND) ∧
    st.storage_ = storage ∧ st.wsHandler_ = wsHandler ∧
    st.broadcasts = [] ∧ st.wsLog = [] ∧
    ∃ message, st.jsonResponse = [("error", .prim (.string message))] := by
  unfold TodoHandler.handleRequest at h
  split at h
  · simp at h
  · rename_i st1 ht
    simp only [Option.some.injEq] at h
    subst h
    rcases TodoHandler.tryBlock_return J sendThrows _ _ _ ht with h1 | h1
    · exact absurd h1 hs
    · rw [h1]
      exact ⟨Or.inr rfl, rfl, rfl, rfl, rfl, _, rfl⟩
  · rename_i ex st1 ht
    simp only [Option.some.injEq] at h
    subst h
    rw [TodoHandler.tryBlock_throw J sendThrows _ _ _ _ ht]
    exact ⟨Or.inl rfl, rfl, rfl, rfl, rfl, _, rfl⟩

/-- C10 on a `PUT` of a record that is not in the store: the answer is 400 with the body
`{"error": "Todo not found"}`, and the store and the registry are as before. -/
theorem error_answer_changes_nothing_witness :
    TodoHandler.handleRequest sampleJson (fun _ => false)
        (exec TodoStorage.new [.createTodo "a" "b"]) ⟨[4]⟩
        ⟨"PUT", "/todos/9",
          some [("title", .inl "x"), ("description", .inl "y"), ("completed", .inr true)]⟩ =
      some ⟨exec TodoStorage.new [.createTodo "a" "b"], ⟨[4]⟩, HTTP_BAD_REQUEST,
        [("error", .prim (.string "Todo not found"))], [], []⟩ ∧
    HTTP_BAD_REQUEST ≠ HTTP_OK ∧
    (exec TodoStorage.new [.createTodo "a" "b"] = exec TodoStorage.new [.createTodo "a" "b"] ∧
      (⟨[4]⟩ : WebSocketHandler) = ⟨[4]⟩ ∧ ([] : List String) = [] ∧
      ([] : List WsEvent) = [] ∧
      ∃ message, ([("error", .prim (.string "Todo not found"))] : JsonObject) =
        [("error", .prim (.string message))]) :=
  ⟨by decide, by decide,
    (error_answer_changes_nothing sampleJson (fun _ => false)
      (exec TodoStorage.new [.createTodo "a" "b"]) ⟨[4]⟩
      ⟨"PUT", "/todos/9",
        some [("title", .inl "x"), ("description", .inl "y"), ("completed", .inr true)]⟩
      ⟨exec TodoStorage.new [.createTodo "a" "b"], ⟨[4]⟩, HTTP_BAD_REQUEST,
        [("error", .prim (.string "Todo not found"))], [], []⟩
      (by decide) (by decide)).2⟩
